import Mathlib

/-!
# Verification of the session CRUD controller and API client

Shallow embedding of `src/server/src/api/session/session.controller.js`
(Express-style resource controller over a persistence store, with
JSON-Patch updates) and of the Angular `ApiService` HTTP wrapper that
follows it in the same file.

JavaScript values are modelled by `JsVal`; an HTTP response object is
modelled as the list of response actions (`res.status(..).json(..)`,
`res.status(..).send(..)`, `res.status(..).end()`) the controller
performs on it, in order.  Promise chains are deterministic, so every
endpoint is a pure function from the store state and the request to the
produced response actions and the new store state.
-/

mutual

/-- A JavaScript/JSON value: the values that flow through the controller
(request bodies, records, patch operations, error payloads). -/
inductive JsVal where
  | null
  | undef
  | bool (b : Bool)
  | num (n : Int)
  | str (s : String)
  | obj (fields : JsFields)
  | arr (elems : JsElems)
deriving DecidableEq, Repr

/-- The ordered field list of a JavaScript object. -/
inductive JsFields where
  | nil
  | cons (key : String) (value : JsVal) (rest : JsFields)
deriving DecidableEq, Repr

/-- The ordered element list of a JavaScript array. -/
inductive JsElems where
  | nil
  | cons (head : JsVal) (rest : JsElems)
deriving DecidableEq, Repr

end

/-- Build a field list from a Lean list (notation helper for concrete values). -/
def fieldsOf : List (String × JsVal) → JsFields
  | [] => JsFields.nil
  | (k, v) :: rest => JsFields.cons k v (fieldsOf rest)

/-- Build an element list from a Lean list (notation helper for concrete values). -/
def elemsOf : List JsVal → JsElems
  | [] => JsElems.nil
  | v :: rest => JsElems.cons v (elemsOf rest)

/-- Build an object value from a Lean list of fields. -/
def objOf (l : List (String × JsVal)) : JsVal := JsVal.obj (fieldsOf l)

/-- Build an array value from a Lean list of elements. -/
def arrOf (l : List JsVal) : JsVal := JsVal.arr (elemsOf l)

/-- JavaScript truthiness of a value (`if (v)`). -/
def truthy : JsVal → Bool
  | JsVal.null => false
  | JsVal.undef => false
  | JsVal.bool b => b
  | JsVal.num n => decide (n ≠ 0)
  | JsVal.str s => decide (s ≠ "")
  | JsVal.obj _ => true
  | JsVal.arr _ => true

/-- Property lookup on an object's field list (`o[key]`), `none` when the
key is absent. -/
def getField : JsFields → String → Option JsVal
  | JsFields.nil, _ => none
  | JsFields.cons k v rest, key => if k = key then some v else getField rest key

/-- Property deletion (`Reflect.deleteProperty(o, key)`). -/
def removeField : JsFields → String → JsFields
  | JsFields.nil, _ => JsFields.nil
  | JsFields.cons k v rest, key =>
    if k = key then removeField rest key else JsFields.cons k v (removeField rest key)

/-- Property assignment (`o[key] = v`): updates the key in place when
present, appends it otherwise (JavaScript insertion order). -/
def setField : JsFields → String → JsVal → JsFields
  | JsFields.nil, key, v => JsFields.cons key v JsFields.nil
  | JsFields.cons k w rest, key, v =>
    if k = key then JsFields.cons k v rest else JsFields.cons k w (setField rest key v)

/-- Property access on an arbitrary value (`v[key]`), yielding `undefined`
when the value is not an object or lacks the key. -/
def getProp (v : JsVal) (key : String) : JsVal :=
  match v with
  | JsVal.obj fs =>
    match getField fs key with
    | some x => x
    | none => JsVal.undef
  | _ => JsVal.undef

example : truthy (JsVal.num 0) = false := by decide
example : getField (fieldsOf [("a", JsVal.num 1), ("b", JsVal.null)]) "b" = some JsVal.null := by decide
example : setField (fieldsOf [("a", JsVal.num 1)]) "a" (JsVal.num 2) = fieldsOf [("a", JsVal.num 2)] := by decide
example : removeField (fieldsOf [("a", JsVal.num 1), ("b", JsVal.null)]) "a" = fieldsOf [("b", JsVal.null)] := by decide

/-! ## JSON-Patch (RFC 6902) application

Modelled from the spec: the controller delegates patch application to the
external `fast-json-patch` library (`jsonpatch.apply(entity, patches, true)`),
which is not part of this repository.  The spec describes it as applying "a
standard ordered sequence of document-patch operations
(add/remove/replace/move/copy/test, per the JSON-Patch semantics)",
validating each operation against the current document before applying, and
failing the whole patch on the first invalid or inapplicable operation. -/

/-- Length of an array's element list. -/
def elemsLen : JsElems → Nat
  | JsElems.nil => 0
  | JsElems.cons _ rest => elemsLen rest + 1

/-- Element at an index, `none` when out of range. -/
def elemsGet : JsElems → Nat → Option JsVal
  | JsElems.nil, _ => none
  | JsElems.cons v _, 0 => some v
  | JsElems.cons _ rest, n + 1 => elemsGet rest n

/-- Replace the element at an index, `none` when out of range. -/
def elemsSet : JsElems → Nat → JsVal → Option JsElems
  | JsElems.nil, _, _ => none
  | JsElems.cons _ rest, 0, v => some (JsElems.cons v rest)
  | JsElems.cons w rest, n + 1, v =>
    match elemsSet rest n v with
    | some rest2 => some (JsElems.cons w rest2)
    | none => none

/-- Insert an element before an index (index ≤ length), `none` otherwise. -/
def elemsInsert : JsElems → Nat → JsVal → Option JsElems
  | xs, 0, v => some (JsElems.cons v xs)
  | JsElems.nil, _ + 1, _ => none
  | JsElems.cons w rest, n + 1, v =>
    match elemsInsert rest n v with
    | some rest2 => some (JsElems.cons w rest2)
    | none => none

/-- Remove the element at an index, `none` when out of range. -/
def elemsRemove : JsElems → Nat → Option JsElems
  | JsElems.nil, _ => none
  | JsElems.cons _ rest, 0 => some rest
  | JsElems.cons w rest, n + 1 =>
    match elemsRemove rest n with
    | some rest2 => some (JsElems.cons w rest2)
    | none => none

/-- Append an element at the end (`path` segment `-` in an `add`). -/
def elemsAppendOne : JsElems → JsVal → JsElems
  | JsElems.nil, v => JsElems.cons v JsElems.nil
  | JsElems.cons w rest, v => JsElems.cons w (elemsAppendOne rest v)

/-- JSON-Pointer segment unescaping: `~1` → `/` and `~0` → `~`. -/
def unescapeChars : List Char → List Char
  | [] => []
  | '~' :: '1' :: rest => '/' :: unescapeChars rest
  | '~' :: '0' :: rest => '~' :: unescapeChars rest
  | x :: rest => x :: unescapeChars rest

/-- Split a character list on a separator character. -/
def splitOnChar (c : Char) : List Char → List (List Char)
  | [] => [[]]
  | x :: rest =>
    if x = c then [] :: splitOnChar c rest
    else
      match splitOnChar c rest with
      | h :: t => (x :: h) :: t
      | [] => [[x]]

/-- Parse a JSON Pointer string into segments: `""` is the whole document,
otherwise the pointer must start with `/`. -/
def parsePointer (path : String) : Option (List String) :=
  match path.data with
  | [] => some []
  | '/' :: rest =>
    some ((splitOnChar '/' rest).map (fun seg => String.mk (unescapeChars seg)))
  | _ => none

/-- Decimal digit value of a character (codepoints 48–57). -/
def charDigit (c : Char) : Option Nat :=
  if 48 ≤ c.toNat ∧ c.toNat ≤ 57 then some (c.toNat - 48) else none

/-- Accumulate a decimal number from characters, `none` on a non-digit. -/
def digitsToNat : List Char → Nat → Option Nat
  | [], acc => some acc
  | c :: rest, acc =>
    match charDigit c with
    | some d => digitsToNat rest (acc * 10 + d)
    | none => none

/-- Parse an array-index pointer segment (a nonempty run of digits). -/
def parseIndex (s : String) : Option Nat :=
  match s.data with
  | [] => none
  | l => digitsToNat l 0

/-- Value a pointer resolves to in a document, `none` when unresolvable. -/
def jpGet : JsVal → List String → Option JsVal
  | doc, [] => some doc
  | JsVal.obj fs, s :: rest =>
    match getField fs s with
    | some child => jpGet child rest
    | none => none
  | JsVal.arr xs, s :: rest =>
    match parseIndex s with
    | some i =>
      match elemsGet xs i with
      | some child => jpGet child rest
      | none => none
    | none => none
  | _, _ :: _ => none

/-- JSON-Patch `add`: set an object key, or insert into an array
(index ≤ length, or `-` to append); the parent must exist. -/
def jpAdd : JsVal → List String → JsVal → Option JsVal
  | _, [], v => some v
  | JsVal.obj fs, [s], v => some (JsVal.obj (setField fs s v))
  | JsVal.arr xs, [s], v =>
    if s = "-" then some (JsVal.arr (elemsAppendOne xs v))
    else
      match parseIndex s with
      | some i => (elemsInsert xs i v).map JsVal.arr
      | none => none
  | JsVal.obj fs, s :: rest, v =>
    match getField fs s with
    | some child => (jpAdd child rest v).map (fun c => JsVal.obj (setField fs s c))
    | none => none
  | JsVal.arr xs, s :: rest, v =>
    match parseIndex s with
    | some i =>
      match elemsGet xs i with
      | some child =>
        (jpAdd child rest v).bind (fun c => (elemsSet xs i c).map JsVal.arr)
      | none => none
    | none => none
  | _, _, _ => none

/-- JSON-Patch `remove`: the target location must exist. -/
def jpRemove : JsVal → List String → Option JsVal
  | _, [] => none
  | JsVal.obj fs, [s] =>
    match getField fs s with
    | some _ => some (JsVal.obj (removeField fs s))
    | none => none
  | JsVal.arr xs, [s] =>
    match parseIndex s with
    | some i => (elemsRemove xs i).map JsVal.arr
    | none => none
  | JsVal.obj fs, s :: rest =>
    match getField fs s with
    | some child => (jpRemove child rest).map (fun c => JsVal.obj (setField fs s c))
    | none => none
  | JsVal.arr xs, s :: rest =>
    match parseIndex s with
    | some i =>
      match elemsGet xs i with
      | some child =>
        (jpRemove child rest).bind (fun c => (elemsSet xs i c).map JsVal.arr)
      | none => none
    | none => none
  | _, _ => none

/-- JSON-Patch `replace`: the target location must exist. -/
def jpReplace : JsVal → List String → JsVal → Option JsVal
  | _, [], v => some v
  | JsVal.obj fs, [s], v =>
    match getField fs s with
    | some _ => some (JsVal.obj (setField fs s v))
    | none => none
  | JsVal.arr xs, [s], v =>
    match parseIndex s with
    | some i => (elemsSet xs i v).map JsVal.arr
    | none => none
  | JsVal.obj fs, s :: rest, v =>
    match getField fs s with
    | some child => (jpReplace child rest v).map (fun c => JsVal.obj (setField fs s c))
    | none => none
  | JsVal.arr xs, s :: rest, v =>
    match parseIndex s with
    | some i =>
      match elemsGet xs i with
      | some child =>
        (jpReplace child rest v).bind (fun c => (elemsSet xs i c).map JsVal.arr)
      | none => none
    | none => none
  | _, _, _ => none

/-- Lift an optional patch outcome into the error monad with the given
failure message. -/
def ofOptionDoc (o : Option JsVal) (msg : String) : Except JsVal JsVal :=
  match o with
  | some d => Except.ok d
  | none => Except.error (JsVal.str msg)

/-- Modelled from the spec: validate one JSON-Patch operation object against
the current document and apply it, failing with an error value when the
operation is malformed or inapplicable. -/
def applyOperation (doc : JsVal) (opv : JsVal) : Except JsVal JsVal :=
  match opv with
  | JsVal.obj fs =>
    match getField fs "op", getField fs "path" with
    | some (JsVal.str op), some (JsVal.str path) =>
      match parsePointer path with
      | none => Except.error (JsVal.str "OPERATION_PATH_INVALID")
      | some segs =>
        if op = "add" then
          match getField fs "value" with
          | some v => ofOptionDoc (jpAdd doc segs v) "OPERATION_PATH_UNRESOLVABLE"
          | none => Except.error (JsVal.str "OPERATION_VALUE_REQUIRED")
        else if op = "remove" then
          ofOptionDoc (jpRemove doc segs) "OPERATION_PATH_UNRESOLVABLE"
        else if op = "replace" then
          match getField fs "value" with
          | some v => ofOptionDoc (jpReplace doc segs v) "OPERATION_PATH_UNRESOLVABLE"
          | none => Except.error (JsVal.str "OPERATION_VALUE_REQUIRED")
        else if op = "move" then
          match getField fs "from" with
          | some (JsVal.str fromPath) =>
            match parsePointer fromPath with
            | some fromSegs =>
              match jpGet doc fromSegs with
              | some v =>
                match jpRemove doc fromSegs with
                | some doc2 => ofOptionDoc (jpAdd doc2 segs v) "OPERATION_PATH_UNRESOLVABLE"
                | none => Except.error (JsVal.str "OPERATION_FROM_UNRESOLVABLE")
              | none => Except.error (JsVal.str "OPERATION_FROM_UNRESOLVABLE")
            | none => Except.error (JsVal.str "OPERATION_FROM_INVALID")
          | _ => Except.error (JsVal.str "OPERATION_FROM_REQUIRED")
        else if op = "copy" then
          match getField fs "from" with
          | some (JsVal.str fromPath) =>
            match parsePointer fromPath with
            | some fromSegs =>
              match jpGet doc fromSegs with
              | some v => ofOptionDoc (jpAdd doc segs v) "OPERATION_PATH_UNRESOLVABLE"
              | none => Except.error (JsVal.str "OPERATION_FROM_UNRESOLVABLE")
            | none => Except.error (JsVal.str "OPERATION_FROM_INVALID")
          | _ => Except.error (JsVal.str "OPERATION_FROM_REQUIRED")
        else if op = "test" then
          match getField fs "value" with
          | some v =>
            match jpGet doc segs with
            | some cur =>
              if cur = v then Except.ok doc
              else Except.error (JsVal.str "TEST_OPERATION_FAILED")
            | none => Except.error (JsVal.str "TEST_OPERATION_FAILED")
          | none => Except.error (JsVal.str "OPERATION_VALUE_REQUIRED")
        else Except.error (JsVal.str "OPERATION_OP_INVALID")
    | _, _ => Except.error (JsVal.str "OPERATION_OP_INVALID")
  | _ => Except.error (JsVal.str "OPERATION_NOT_AN_OBJECT")

/-- Apply an ordered sequence of operations, stopping at the first failure. -/
def applyOps : JsVal → JsElems → Except JsVal JsVal
  | doc, JsElems.nil => Except.ok doc
  | doc, JsElems.cons op rest =>
    match applyOperation doc op with
    | Except.ok doc2 => applyOps doc2 rest
    | Except.error e => Except.error e

/-- Modelled from the spec: `jsonpatch.apply(document, patches, true)` of the
external `fast-json-patch` library — the patch document must be an array of
operations, applied in order with validation, all-or-nothing. -/
def jsonpatchApply (doc : JsVal) (patches : JsVal) : Except JsVal JsVal :=
  match patches with
  | JsVal.arr ops => applyOps doc ops
  | _ => Except.error (JsVal.str "SEQUENCE_NOT_AN_ARRAY")

deriving instance DecidableEq for Except

example :
    jsonpatchApply (objOf [("name", JsVal.str "a")])
      (arrOf [objOf [("op", JsVal.str "replace"), ("path", JsVal.str "/name"), ("value", JsVal.str "b")]])
    = Except.ok (objOf [("name", JsVal.str "b")]) := by decide

example :
    jsonpatchApply (objOf [("name", JsVal.str "a")])
      (arrOf [objOf [("op", JsVal.str "test"), ("path", JsVal.str "/name"), ("value", JsVal.str "z")]])
    = Except.error (JsVal.str "TEST_OPERATION_FAILED") := by decide

/-! ## Persistence store

Modelled from the spec: the Sequelize `Session` model lives in
`src/server/src/conn/sqldb`, which is not under `src/`.  The spec describes
the store as an external collaborator with key-based CRUD over records:
`findAll()`, `findById(id)`, `create(fields)` (identity assigned by the
store), `upsert(id, fields)` ("record at `id`, created if absent, replaced
if present"), `deleteById(id)`, and `save(record)` ("the mutated record is
persisted in a single write"). -/

/-- A persisted record: the field list of one stored row. -/
abbrev SessionRecord := JsFields

/-- The store state: the ordered list of persisted rows. -/
abbrev Store := List SessionRecord

/-- Whether a row's `_id` attribute equals the given identity value. -/
def idMatches (id : JsVal) (r : SessionRecord) : Bool :=
  decide (getField r "_id" = some id)

/-- `Session.find({where: {_id: id}})`: resolves with the first matching
row, or with `null` when none exists. -/
def sessionFind (store : Store) (id : JsVal) : JsVal :=
  match store.find? (idMatches id) with
  | some r => JsVal.obj r
  | none => JsVal.null

/-- `Session.findAll()`: resolves with the array of all rows. -/
def sessionFindAll (store : Store) : JsVal :=
  JsVal.arr (elemsOf (store.map JsVal.obj))

/-- Largest numeric `_id` present in the store (0 when none). -/
def maxNumId : Store → Int
  | [] => 0
  | r :: rest =>
    match getField r "_id" with
    | some (JsVal.num k) => max k (maxNumId rest)
    | _ => maxNumId rest

/-- Modelled from the spec: the identity the store assigns to the next
created record — a fresh numeric id not used by any stored row. -/
def freshId (store : Store) : JsVal := JsVal.num (maxNumId store + 1)

/-- `Session.create(body)`: inserts a new row built from the body's fields
with a store-assigned identity; resolves with the created record. -/
def sessionCreate (store : Store) (fields : JsFields) : SessionRecord × Store :=
  let r := setField fields "_id" (freshId store)
  (r, store ++ [r])

/-- Replace the first row satisfying the predicate. -/
def replaceFirst (p : SessionRecord → Bool) (new : SessionRecord) : Store → Store
  | [] => []
  | r :: rest => if p r then new :: rest else r :: replaceFirst p new rest

/-- Remove the first row satisfying the predicate. -/
def removeFirstRow (p : SessionRecord → Bool) : Store → Store
  | [] => []
  | r :: rest => if p r then rest else r :: removeFirstRow p rest

/-- `Session.upsert(values, {where: {_id: id}})`, modelled from the spec:
"record at `id`, created if absent, replaced if present"; resolves with the
record at `id`.  A non-object values document is a persistence error. -/
def sessionUpsert (store : Store) (id : JsVal) (values : JsVal) :
    Except JsVal (JsVal × Store) :=
  match values with
  | JsVal.obj fields =>
    let r := setField fields "_id" id
    if store.any (idMatches id) then
      Except.ok (JsVal.obj r, replaceFirst (idMatches id) r store)
    else
      Except.ok (JsVal.obj r, store ++ [r])
  | _ => Except.error (JsVal.str "upsert requires an object document")

/-- `entity.save()`, modelled from the spec: persists the mutated record in
a single write over the row the entity was loaded from (the row found at
the path-supplied identity).  Calling `save` on a non-object (in particular
on `null`) is a runtime `TypeError`, i.e. a rejection. -/
def entitySave (doc : JsVal) (store : Store) (pathId : JsVal) :
    Except JsVal (JsVal × Store) :=
  match doc with
  | JsVal.obj fields => Except.ok (doc, replaceFirst (idMatches pathId) fields store)
  | _ => Except.error (JsVal.str "TypeError: entity.save is not a function")

/-- `entity.destroy()`: deletes the entity's row (found at its `_id`). -/
def entityDestroy (fields : SessionRecord) (store : Store) : Store :=
  removeFirstRow (fun r => decide (getField r "_id" = getField fields "_id")) store

/-! ## Resource controller

Embedding of `src/server/src/api/session/session.controller.js`.  An
Express response object is modelled as the ordered list of response actions
performed on it. -/

/-- One write to the Express response object. -/
inductive ResAction where
  | json (status : Nat) (body : JsVal)
  | send (status : Nat) (body : JsVal)
  | endRes (status : Nat)
deriving DecidableEq, Repr

/-- The status code an action writes. -/
def statusOf : ResAction → Nat
  | ResAction.json s _ => s
  | ResAction.send s _ => s
  | ResAction.endRes s => s

/-- Status codes of a response-action list, in order. -/
def resStatuses (l : List ResAction) : List Nat := l.map statusOf

/-- What the `respondWithResult` continuation returns: the response object
(after `res.status(..).json(..)`) or `null`. -/
inductive RWROut where
  | resObj
  | nullOut
deriving DecidableEq, Repr

/-- `respondWithResult(res, statusCode)`: defaults the status code to 200;
sends the entity as JSON when it is truthy, otherwise returns `null`
without writing anything. -/
def respondWithResult (statusCode : Option Nat) (entity : JsVal)
    (res : List ResAction) : List ResAction × RWROut :=
  let sc := statusCode.getD 200
  if truthy entity then (res ++ [ResAction.json sc entity], RWROut.resObj)
  else (res, RWROut.nullOut)

/-- `patchUpdates(patches)`: applies the patch document to the entity
(rejecting on a thrown validation/application error) and then persists the
mutated entity with `entity.save()`. -/
def patchUpdates (patches : JsVal) (entity : JsVal) (store : Store)
    (pathId : JsVal) : Except JsVal (JsVal × Store) :=
  match jsonpatchApply entity patches with
  | Except.error err => Except.error err
  | Except.ok doc => entitySave doc store pathId

/-- `handleEntityNotFound(res)`: on a falsy entity ends the response with
404 and returns `null`; otherwise passes the entity through. -/
def handleEntityNotFound (entity : JsVal) (res : List ResAction) :
    List ResAction × JsVal :=
  if truthy entity then (res, entity)
  else (res ++ [ResAction.endRes 404], JsVal.null)

/-- `handleError(res, statusCode)`: defaults the status code to 500 and
sends the error value as the response body. -/
def handleError (statusCode : Option Nat) (err : JsVal)
    (res : List ResAction) : List ResAction :=
  res ++ [ResAction.send (statusCode.getD 500) err]

/-- `removeEntity(res)`: when the entity is a found record, destroys it and
ends the response with 204 (no body); on `null` it does nothing.  (In the
controller this continuation only ever receives the result of
`handleEntityNotFound`: a record or `null`.) -/
def removeEntity (entity : JsVal) (res : List ResAction) (store : Store) :
    List ResAction × Store :=
  match entity with
  | JsVal.obj fields => (res ++ [ResAction.endRes 204], entityDestroy fields store)
  | _ => (res, store)

/-- The `if (req.body._id) { Reflect.deleteProperty(req.body, '_id'); }`
prologue of `upsert` and `patch`: deletes the body's top-level `_id`
property only when the body is an object whose `_id` is truthy; any other
body (in particular a patch-operation array) is left untouched. -/
def stripBodyId (body : JsVal) : JsVal :=
  match body with
  | JsVal.obj fs =>
    match getField fs "_id" with
    | some v => if truthy v then JsVal.obj (removeField fs "_id") else body
    | none => body
  | _ => body

/-- `index`: `Session.findAll().then(respondWithResult(res))`. -/
def indexEndpoint (store : Store) : List ResAction × Store :=
  ((respondWithResult none (sessionFindAll store) []).1, store)

/-- `show`: find by the path id, 404 when absent, otherwise respond with
the record. -/
def showEndpoint (store : Store) (id : JsVal) : List ResAction × Store :=
  ((respondWithResult none
      (handleEntityNotFound (sessionFind store id) []).2
      (handleEntityNotFound (sessionFind store id) []).1).1,
   store)

/-- `create`: `Session.create(req.body).then(respondWithResult(res, 201))`. -/
def createEndpoint (store : Store) (fields : JsFields) : List ResAction × Store :=
  ((respondWithResult (some 201) (JsVal.obj (sessionCreate store fields).1) []).1,
   (sessionCreate store fields).2)

/-- `upsert`: strip a truthy body `_id`, then
`Session.upsert(req.body, {where: {_id: req.params.id}})` and respond with
the store's resolution value; a store failure goes to `handleError`. -/
def upsertEndpoint (store : Store) (id : JsVal) (body : JsVal) :
    List ResAction × Store :=
  match sessionUpsert store id (stripBodyId body) with
  | Except.ok (r, store2) => ((respondWithResult none r []).1, store2)
  | Except.error err => (handleError none err [], store)

/-- `patch`: strip a truthy body `_id`, find by the path id, 404 when
absent, apply the patch document and save, respond with the saved entity;
any rejection goes to `handleError`. -/
def patchEndpoint (store : Store) (id : JsVal) (body : JsVal) :
    List ResAction × Store :=
  match patchUpdates (stripBodyId body)
      (handleEntityNotFound (sessionFind store id) []).2 store id with
  | Except.ok (doc, store2) =>
    ((respondWithResult none doc (handleEntityNotFound (sessionFind store id) []).1).1,
     store2)
  | Except.error err =>
    (handleError none err (handleEntityNotFound (sessionFind store id) []).1, store)

/-- `destroy`: find by the path id, 404 when absent, otherwise destroy the
record and end with 204. -/
def destroyEndpoint (store : Store) (id : JsVal) : List ResAction × Store :=
  removeEntity (handleEntityNotFound (sessionFind store id) []).2
    (handleEntityNotFound (sessionFind store id) []).1 store

example :
    showEndpoint [fieldsOf [("_id", JsVal.num 1), ("name", JsVal.str "a")]] (JsVal.num 1)
    = ([ResAction.json 200 (objOf [("_id", JsVal.num 1), ("name", JsVal.str "a")])],
       [fieldsOf [("_id", JsVal.num 1), ("name", JsVal.str "a")]]) := by decide

example : showEndpoint [] (JsVal.num 999) = ([ResAction.endRes 404], []) := by decide

example :
    destroyEndpoint [fieldsOf [("_id", JsVal.num 1)]] (JsVal.num 1)
    = ([ResAction.endRes 204], []) := by decide

/-! ## API client

Embedding of the Angular `ApiService`: four verbs against a configured
base URL, bodies serialized with `JSON.stringify` for the write verbs,
query parameters forwarded for GET, and every transport/application
failure mapped through the single `formatErrors` function, which unwraps
the structured error (`error.error`) and rethrows it as a failed
asynchronous result. -/

/-- Serialize a string's characters as JSON (quote and backslash escaped). -/
def escapeJsonChars : List Char → String
  | [] => ""
  | '"' :: rest => "\\\"" ++ escapeJsonChars rest
  | '\\' :: rest => "\\\\" ++ escapeJsonChars rest
  | c :: rest => String.mk [c] ++ escapeJsonChars rest

mutual

/-- `JSON.stringify` on a value (a top-level or nested `undefined`
serializes as `null`; caller bodies are JSON documents, which contain no
`undefined`). -/
def stringifyJson : JsVal → String
  | JsVal.null => "null"
  | JsVal.undef => "null"
  | JsVal.bool true => "true"
  | JsVal.bool false => "false"
  | JsVal.num n => toString n
  | JsVal.str s => "\"" ++ escapeJsonChars s.data ++ "\""
  | JsVal.obj fs => "\x7b" ++ stringifyFields fs ++ "\x7d"
  | JsVal.arr xs => "[" ++ stringifyElems xs ++ "]"

/-- Serialize an object's fields. -/
def stringifyFields : JsFields → String
  | JsFields.nil => ""
  | JsFields.cons k v JsFields.nil =>
    "\"" ++ escapeJsonChars k.data ++ "\":" ++ stringifyJson v
  | JsFields.cons k v rest =>
    "\"" ++ escapeJsonChars k.data ++ "\":" ++ stringifyJson v ++ "," ++ stringifyFields rest

/-- Serialize an array's elements. -/
def stringifyElems : JsElems → String
  | JsElems.nil => ""
  | JsElems.cons v JsElems.nil => stringifyJson v
  | JsElems.cons v rest => stringifyJson v ++ "," ++ stringifyElems rest

end

/-- One HTTP request issued by the client (`HttpClient` call). -/
inductive HttpReq where
  | get (url : String) (params : JsVal)
  | put (url : String) (body : String)
  | post (url : String) (body : String)
  | delete (url : String)
deriving DecidableEq, Repr

/-- The transport's answer to one request: a decoded response body on
success, or an error object (whose `error` property carries the structured
error payload) on failure. -/
inductive HttpResult where
  | success (body : JsVal)
  | failure (error : JsVal)
deriving DecidableEq, Repr

/-- An abstract HTTP transport: what the injected `HttpClient` answers for
each request. -/
def HttpTransport := HttpReq → HttpResult

/-- `formatErrors(error)`: `return throwError(error.error)` — the payload
the failed asynchronous result carries. -/
def formatErrors (error : JsVal) : JsVal := getProp error "error"

/-- The single outcome of an `ApiService` call: the decoded response body,
or the normalized error payload. -/
def runCall (http : HttpTransport) (req : HttpReq) : Except JsVal JsVal :=
  match http req with
  | HttpResult.success b => Except.ok b
  | HttpResult.failure e => Except.error (formatErrors e)

/-- `ApiService.get(path, params)`. -/
def apiServiceGet (http : HttpTransport) (apiUrl path : String) (params : JsVal) :
    Except JsVal JsVal :=
  runCall http (HttpReq.get (apiUrl ++ path) params)

/-- `ApiService.put(path, body)`. -/
def apiServicePut (http : HttpTransport) (apiUrl path : String) (body : JsVal) :
    Except JsVal JsVal :=
  runCall http (HttpReq.put (apiUrl ++ path) (stringifyJson body))

/-- `ApiService.post(path, body)`. -/
def apiServicePost (http : HttpTransport) (apiUrl path : String) (body : JsVal) :
    Except JsVal JsVal :=
  runCall http (HttpReq.post (apiUrl ++ path) (stringifyJson body))

/-- `ApiService.delete(path)`. -/
def apiServiceDelete (http : HttpTransport) (apiUrl path : String) :
    Except JsVal JsVal :=
  runCall http (HttpReq.delete (apiUrl ++ path))

/-! ## Field-list lemmas -/

theorem getField_removeField : ∀ (fs : JsFields) (key : String),
    getField (removeField fs key) key = none
  | JsFields.nil, _ => rfl
  | JsFields.cons k v rest, key => by
    by_cases h : k = key
    · simpa [removeField, h] using getField_removeField rest key
    · simp [removeField, getField, h, getField_removeField rest key]

theorem getField_setField : ∀ (fs : JsFields) (key : String) (v : JsVal),
    getField (setField fs key v) key = some v
  | JsFields.nil, key, v => by simp [setField, getField]
  | JsFields.cons k w rest, key, v => by
    by_cases h : k = key
    · simp [setField, getField, h]
    · simp [setField, getField, h, getField_setField rest key v]

/-! ## Claim theorems -/

/-- C10: when the value flowing into the success responder is falsy, no
success response is sent at all: `respondWithResult` returns `null` without
writing a status or body. -/
theorem respondWithResult_falsy_no_write (statusCode : Option Nat)
    (entity : JsVal) (res : List ResAction) (h : truthy entity = false) :
    respondWithResult statusCode entity res = (res, RWROut.nullOut) := by
  simp [respondWithResult, h]

/-- `respondWithResult_falsy_no_write` at the concrete falsy value `false`. -/
theorem respondWithResult_falsy_no_write_holds :
    respondWithResult none (JsVal.bool false) [] = ([], RWROut.nullOut) :=
  respondWithResult_falsy_no_write none (JsVal.bool false) [] (by decide)

/-- C8: the identity-stripping prologue of `upsert` and `patch` removes the
body's `_id` only when it is truthy: a falsy `_id` (0, empty string, false,
null) is left in the body that is passed on to the store. -/
theorem stripBodyId_falsy_not_stripped (fs : JsFields) (v : JsVal)
    (h : getField fs "_id" = some v) (hf : truthy v = false) :
    stripBodyId (JsVal.obj fs) = JsVal.obj fs := by
  simp [stripBodyId, h, hf]

/-- `stripBodyId_falsy_not_stripped` at the concrete falsy `_id` value 0. -/
theorem stripBodyId_falsy_not_stripped_holds :
    stripBodyId (JsVal.obj (fieldsOf [("_id", JsVal.num 0), ("name", JsVal.str "a")]))
      = JsVal.obj (fieldsOf [("_id", JsVal.num 0), ("name", JsVal.str "a")]) :=
  stripBodyId_falsy_not_stripped _ (JsVal.num 0) (by decide) (by decide)

/-- C1 counterexample: a `replace /_id` patch operation is not stripped —
after the patch, the persisted record's identity is the body-supplied 999,
not the path-supplied 1. -/
theorem patch_op_overwrites_identity :
    (patchEndpoint [fieldsOf [("_id", JsVal.num 1), ("name", JsVal.str "a")]]
        (JsVal.num 1)
        (JsVal.arr (elemsOf [JsVal.obj (fieldsOf
          [("op", JsVal.str "replace"), ("path", JsVal.str "/_id"),
           ("value", JsVal.num 999)])]))).2.map (fun r => getField r "_id")
      = [some (JsVal.num 999)]
    ∧ JsVal.num 999 ≠ JsVal.num 1 := by decide

/-- C1 (amended): the prologue strips only a truthy top-level `_id`
property of the body object — such an `_id` indeed never reaches the store —
while a patch-operation array is passed through entirely untouched, so
identity values inside patch operations do reach the store. -/
theorem strip_only_topLevel_truthy_id (fs : JsFields) (v : JsVal) (ops : JsElems)
    (h : getField fs "_id" = some v) (ht : truthy v = true) :
    stripBodyId (JsVal.obj fs) = JsVal.obj (removeField fs "_id") ∧
    getField (removeField fs "_id") "_id" = none ∧
    stripBodyId (JsVal.arr ops) = JsVal.arr ops := by
  refine ⟨?_, getField_removeField fs "_id", rfl⟩
  simp [stripBodyId, h, ht]

/-- `strip_only_topLevel_truthy_id` at a concrete truthy `_id` value. -/
theorem strip_only_topLevel_truthy_id_holds :
    stripBodyId (JsVal.obj (fieldsOf [("_id", JsVal.num 7), ("name", JsVal.str "a")]))
      = JsVal.obj (removeField (fieldsOf [("_id", JsVal.num 7), ("name", JsVal.str "a")]) "_id") :=
  (strip_only_topLevel_truthy_id _ (JsVal.num 7) JsElems.nil (by decide) (by decide)).1

/-- C2: when the record exists but patch application fails (validation
failure or inapplicable operation), the whole patch is rejected: the error
is surfaced as the only response (500 with the error as body) and the store
is left unchanged — no persistence write occurs. -/
theorem patch_failure_rejects_whole_patch (store : Store) (id body e : JsVal)
    (r : SessionRecord)
    (hfound : sessionFind store id = JsVal.obj r)
    (hfail : jsonpatchApply (JsVal.obj r) (stripBodyId body) = Except.error e) :
    patchEndpoint store id body = ([ResAction.send 500 e], store) := by
  unfold patchEndpoint
  rw [hfound]
  simp [handleEntityNotFound, truthy, patchUpdates, hfail, handleError]

/-- `patch_failure_rejects_whole_patch` at a concrete mismatching `test`
operation. -/
theorem patch_failure_rejects_whole_patch_holds :
    patchEndpoint [fieldsOf [("_id", JsVal.num 1), ("name", JsVal.str "a")]]
        (JsVal.num 1)
        (JsVal.arr (elemsOf [JsVal.obj (fieldsOf
          [("op", JsVal.str "test"), ("path", JsVal.str "/name"),
           ("value", JsVal.str "z")])]))
      = ([ResAction.send 500 (JsVal.str "TEST_OPERATION_FAILED")],
         [fieldsOf [("_id", JsVal.num 1), ("name", JsVal.str "a")]]) :=
  patch_failure_rejects_whole_patch
    [fieldsOf [("_id", JsVal.num 1), ("name", JsVal.str "a")]]
    (JsVal.num 1)
    (JsVal.arr (elemsOf [JsVal.obj (fieldsOf
      [("op", JsVal.str "test"), ("path", JsVal.str "/name"),
       ("value", JsVal.str "z")])]))
    (JsVal.str "TEST_OPERATION_FAILED")
    (fieldsOf [("_id", JsVal.num 1), ("name", JsVal.str "a")])
    (by decide) (by decide)

/-- C3 (behavior at the failing input): `show` and `destroy` on a missing
id stop after the 404, but `patch` on a missing id passes the `null`
entity into `patchUpdates`, whose rejection reaches the generic error
responder — the response log shows a 500 write attempted after the 404,
against the uniform not-found rule. -/
theorem patch_not_found_reinvokes_error_responder :
    showEndpoint [] (JsVal.num 1) = ([ResAction.endRes 404], []) ∧
    destroyEndpoint [] (JsVal.num 1) = ([ResAction.endRes 404], []) ∧
    patchEndpoint [] (JsVal.num 1)
        (JsVal.arr (elemsOf [JsVal.obj (fieldsOf
          [("op", JsVal.str "test"), ("path", JsVal.str "/name"),
           ("value", JsVal.str "a")])]))
      = ([ResAction.endRes 404,
          ResAction.send 500 (JsVal.str "TEST_OPERATION_FAILED")], []) := by
  decide

/-- C9: every failure reaching an operation's catch path is answered by
`handleError` with the default 500 and the raw error as body; in
particular a patch validation failure yields a 500 response, never a 4xx
client-error code. -/
theorem catch_failures_answered_500 (err : JsVal) (res : List ResAction)
    (store : Store) (id body e : JsVal) (r : SessionRecord)
    (hfound : sessionFind store id = JsVal.obj r)
    (hfail : jsonpatchApply (JsVal.obj r) (stripBodyId body) = Except.error e) :
    handleError none err res = res ++ [ResAction.send 500 err] ∧
    (patchEndpoint store id body).1 = [ResAction.send 500 e] ∧
    resStatuses (patchEndpoint store id body).1 = [500] := by
  refine ⟨rfl, ?_, ?_⟩ <;>
  · unfold patchEndpoint
    rw [hfound]
    simp [handleEntityNotFound, truthy, patchUpdates, hfail, handleError,
      resStatuses, statusOf]

/-- `catch_failures_answered_500` at a concrete malformed operation (an
unrecognized op name). -/
theorem catch_failures_answered_500_holds :
    handleError none (JsVal.str "boom") [] = [ResAction.send 500 (JsVal.str "boom")] ∧
    (patchEndpoint [fieldsOf [("_id", JsVal.num 2)]] (JsVal.num 2)
        (JsVal.arr (elemsOf [JsVal.obj (fieldsOf
          [("op", JsVal.str "frobnicate"), ("path", JsVal.str "/x")])]))).1
      = [ResAction.send 500 (JsVal.str "OPERATION_OP_INVALID")] := by
  have h := catch_failures_answered_500 (JsVal.str "boom") []
    [fieldsOf [("_id", JsVal.num 2)]] (JsVal.num 2)
    (JsVal.arr (elemsOf [JsVal.obj (fieldsOf
      [("op", JsVal.str "frobnicate"), ("path", JsVal.str "/x")])]))
    (JsVal.str "OPERATION_OP_INVALID")
    (fieldsOf [("_id", JsVal.num 2)]) (by decide) (by decide)
  exact ⟨h.1, h.2.1⟩

/-- C4: every `ApiService` call (get, put, post, delete) has exactly one of
two outcomes, determined by the transport's answer: it resolves with the
decoded response body, or it fails with the payload normalized by the
single `formatErrors` function (the unwrapped `error.error`). -/
theorem apiService_resolves_or_normalized_error (http : HttpTransport)
    (apiUrl path : String) (params body : JsVal) :
    ((∃ b, http (HttpReq.get (apiUrl ++ path) params) = HttpResult.success b ∧
        apiServiceGet http apiUrl path params = Except.ok b) ∨
     (∃ e, http (HttpReq.get (apiUrl ++ path) params) = HttpResult.failure e ∧
        apiServiceGet http apiUrl path params = Except.error (formatErrors e))) ∧
    ((∃ b, http (HttpReq.put (apiUrl ++ path) (stringifyJson body)) = HttpResult.success b ∧
        apiServicePut http apiUrl path body = Except.ok b) ∨
     (∃ e, http (HttpReq.put (apiUrl ++ path) (stringifyJson body)) = HttpResult.failure e ∧
        apiServicePut http apiUrl path body = Except.error (formatErrors e))) ∧
    ((∃ b, http (HttpReq.post (apiUrl ++ path) (stringifyJson body)) = HttpResult.success b ∧
        apiServicePost http apiUrl path body = Except.ok b) ∨
     (∃ e, http (HttpReq.post (apiUrl ++ path) (stringifyJson body)) = HttpResult.failure e ∧
        apiServicePost http apiUrl path body = Except.error (formatErrors e))) ∧
    ((∃ b, http (HttpReq.delete (apiUrl ++ path)) = HttpResult.success b ∧
        apiServiceDelete http apiUrl path = Except.ok b) ∨
     (∃ e, http (HttpReq.delete (apiUrl ++ path)) = HttpResult.failure e ∧
        apiServiceDelete http apiUrl path = Except.error (formatErrors e))) := by
  refine ⟨?_, ?_, ?_, ?_⟩
  · cases h : http (HttpReq.get (apiUrl ++ path) params) with
    | success b => exact Or.inl ⟨b, rfl, by simp [apiServiceGet, runCall, h]⟩
    | failure e => exact Or.inr ⟨e, rfl, by simp [apiServiceGet, runCall, h]⟩
  · cases h : http (HttpReq.put (apiUrl ++ path) (stringifyJson body)) with
    | success b => exact Or.inl ⟨b, rfl, by simp [apiServicePut, runCall, h]⟩
    | failure e => exact Or.inr ⟨e, rfl, by simp [apiServicePut, runCall, h]⟩
  · cases h : http (HttpReq.post (apiUrl ++ path) (stringifyJson body)) with
    | success b => exact Or.inl ⟨b, rfl, by simp [apiServicePost, runCall, h]⟩
    | failure e => exact Or.inr ⟨e, rfl, by simp [apiServicePost, runCall, h]⟩
  · cases h : http (HttpReq.delete (apiUrl ++ path)) with
    | success b => exact Or.inl ⟨b, rfl, by simp [apiServiceDelete, runCall, h]⟩
    | failure e => exact Or.inr ⟨e, rfl, by simp [apiServiceDelete, runCall, h]⟩

/-! ## Store lemmas -/

theorem stripBodyId_obj (fs : JsFields) :
    ∃ gs, stripBodyId (JsVal.obj fs) = JsVal.obj gs := by
  cases h : getField fs "_id" with
  | none => exact ⟨fs, by simp [stripBodyId, h]⟩
  | some v =>
    cases hv : truthy v with
    | true => exact ⟨removeField fs "_id", by simp [stripBodyId, h, hv]⟩
    | false => exact ⟨fs, by simp [stripBodyId, h, hv]⟩

theorem find?_replaceFirst (p : SessionRecord → Bool) (new : SessionRecord)
    (l : Store) (hnew : p new = true) (hl : l.any p = true) :
    (replaceFirst p new l).find? p = some new := by
  induction l with
  | nil => cases hl
  | cons r rest ih =>
    cases hpr : p r with
    | true => rw [replaceFirst, if_pos hpr, List.find?_cons_of_pos _ hnew]
    | false =>
      have hrest : rest.any p = true := by
        rw [List.any_cons, hpr] at hl
        simpa using hl
      rw [replaceFirst, if_neg (by simp [hpr]), List.find?_cons_of_neg _ (by simp [hpr])]
      exact ih hrest

theorem replaceFirst_decomp (p : SessionRecord → Bool) (new : SessionRecord)
    (l : Store) (hl : l.any p = true) :
    ∃ pre old post, l = pre ++ old :: post ∧ p old = true ∧
      (∀ x ∈ pre, p x = false) ∧
      replaceFirst p new l = pre ++ new :: post := by
  induction l with
  | nil => cases hl
  | cons r rest ih =>
    cases hpr : p r with
    | true =>
      refine ⟨[], r, rest, rfl, hpr, by simp, ?_⟩
      rw [replaceFirst, if_pos hpr]
      rfl
    | false =>
      have hrest : rest.any p = true := by
        rw [List.any_cons, hpr] at hl
        simpa using hl
      obtain ⟨pre, old, post, he, hpo, hpre, hrep⟩ := ih hrest
      refine ⟨r :: pre, old, post, ?_, hpo, ?_, ?_⟩
      · simp [he]
      · intro x hx
        rcases List.mem_cons.mp hx with h | h
        · rw [h]; exact hpr
        · exact hpre x h
      · rw [replaceFirst, if_neg (by simp [hpr]), hrep, List.cons_append]

theorem le_maxNumId (store : Store) (r : SessionRecord) (k : Int)
    (hmem : r ∈ store) (hid : getField r "_id" = some (JsVal.num k)) :
    k ≤ maxNumId store := by
  induction store with
  | nil => cases hmem
  | cons s rest ih =>
    rcases List.mem_cons.mp hmem with h | h
    · subst h
      have he : maxNumId (r :: rest) = max k (maxNumId rest) := by
        simp [maxNumId, hid]
      rw [he]
      exact le_max_left _ _
    · have hrest := ih h
      cases hs : getField s "_id" with
      | none => simpa [maxNumId, hs] using hrest
      | some v =>
        cases v
        case num k2 =>
          have he : maxNumId (s :: rest) = max k2 (maxNumId rest) := by
            simp [maxNumId, hs]
          rw [he]
          exact le_trans hrest (le_max_right _ _)
        all_goals simpa [maxNumId, hs] using hrest

theorem freshId_unused (store : Store) (r : SessionRecord) (hmem : r ∈ store) :
    idMatches (freshId store) r = false := by
  unfold idMatches freshId
  cases hg : getField r "_id" with
  | none => simp [hg]
  | some v =>
    cases v
    case num k =>
      have hk := le_maxNumId store r k hmem hg
      simp only [hg, decide_eq_false_iff_not]
      intro hcontra
      injection hcontra with h1
      injection h1 with h2
      omega
    all_goals simp [hg]

theorem patchUpdates_ok_obj (patches entity : JsVal) (store : Store) (pid : JsVal)
    (d : JsVal) (s : Store)
    (h : patchUpdates patches entity store pid = Except.ok (d, s)) :
    truthy d = true := by
  unfold patchUpdates at h
  cases ha : jsonpatchApply entity patches with
  | error e => rw [ha] at h; cases h
  | ok doc2 =>
    rw [ha] at h
    unfold entitySave at h
    cases doc2 <;> simp at h
    case obj fs =>
      rw [← h.1]
      rfl

/-- C6: an upsert at path `id` responds 200 with the record now at `id`
(the stripped body fields with identity `id`): appended to the store when
no row matched `id`, substituted in place for the first matching row when
one did, and findable at `id` afterwards. -/
theorem upsert_creates_or_replaces (store : Store) (id : JsVal) (fields : JsFields) :
    ∃ gs store2,
      stripBodyId (JsVal.obj fields) = JsVal.obj gs ∧
      upsertEndpoint store id (JsVal.obj fields)
        = ([ResAction.json 200 (JsVal.obj (setField gs "_id" id))], store2) ∧
      getField (setField gs "_id" id) "_id" = some id ∧
      sessionFind store2 id = JsVal.obj (setField gs "_id" id) ∧
      (store.any (idMatches id) = false → store2 = store ++ [setField gs "_id" id]) ∧
      (store.any (idMatches id) = true →
        ∃ pre old post, store = pre ++ old :: post ∧ idMatches id old = true ∧
          (∀ x ∈ pre, idMatches id x = false) ∧
          store2 = pre ++ setField gs "_id" id :: post) := by
  obtain ⟨gs, hgs⟩ := stripBodyId_obj fields
  have hidm : idMatches id (setField gs "_id" id) = true := by
    simp [idMatches, getField_setField]
  cases hany : store.any (idMatches id) with
  | false =>
    refine ⟨gs, store ++ [setField gs "_id" id], hgs, ?_,
      getField_setField gs "_id" id, ?_, fun _ => rfl,
      fun hc => nomatch hc⟩
    · unfold upsertEndpoint
      rw [hgs]
      simp [sessionUpsert, hany, respondWithResult, truthy]
    · have hnone : store.find? (idMatches id) = none :=
        List.find?_eq_none.mpr (fun x hx => by
          simp [(List.any_eq_false.mp hany) x hx])
      unfold sessionFind
      rw [List.find?_append, hnone]
      simp [List.find?_cons_of_pos _ hidm]
  | true =>
    obtain ⟨pre, old, post, he, hpo, hpre, hrep⟩ :=
      replaceFirst_decomp (idMatches id) (setField gs "_id" id) store hany
    refine ⟨gs, replaceFirst (idMatches id) (setField gs "_id" id) store, hgs, ?_,
      getField_setField gs "_id" id, ?_, ?_, ?_⟩
    · unfold upsertEndpoint
      rw [hgs]
      simp [sessionUpsert, hany, respondWithResult, truthy]
    · unfold sessionFind
      rw [find?_replaceFirst (idMatches id) _ store hidm hany]
    · intro hc
      cases hc
    · exact fun _ => ⟨pre, old, post, he, hpo, hpre, hrep⟩

/-- C7: a create assigns the store's fresh identity and responds 201 with
the created record; a show at that identity immediately afterwards responds
200 with a record equal to the created one, leaving the store untouched. -/
theorem create_then_show_roundtrip (store : Store) (fields : JsFields) :
    ∃ r store2,
      createEndpoint store fields = ([ResAction.json 201 (JsVal.obj r)], store2) ∧
      getField r "_id" = some (freshId store) ∧
      showEndpoint store2 (freshId store) = ([ResAction.json 200 (JsVal.obj r)], store2) := by
  refine ⟨setField fields "_id" (freshId store),
    store ++ [setField fields "_id" (freshId store)], ?_,
    getField_setField fields "_id" (freshId store), ?_⟩
  · unfold createEndpoint sessionCreate
    simp [respondWithResult, truthy]
  · have hm : idMatches (freshId store) (setField fields "_id" (freshId store)) = true := by
      simp [idMatches, getField_setField]
    have hnone : store.find? (idMatches (freshId store)) = none :=
      List.find?_eq_none.mpr (fun x hx => by simp [freshId_unused store x hx])
    have hfind : sessionFind (store ++ [setField fields "_id" (freshId store)])
        (freshId store) = JsVal.obj (setField fields "_id" (freshId store)) := by
      unfold sessionFind
      rw [List.find?_append, hnone]
      simp [List.find?_cons_of_pos _ hm]
    unfold showEndpoint
    rw [hfind]
    simp [handleEntityNotFound, truthy, respondWithResult]

/-- C5: the status-code mapping — 200 for read/update success (index,
show, upsert, patch), 201 for create success, 204 with no body for destroy
success, 404 when the record is not found, and 500 with the error detail as
body from the generic error responder. -/
theorem status_code_mapping (store store2 : Store) (id id2 err body doc : JsVal)
    (r : SessionRecord) (fields : JsFields) (res : List ResAction) (store3 : Store)
    (hfound : sessionFind store id = JsVal.obj r)
    (hmiss : sessionFind store2 id2 = JsVal.null)
    (hpatch : patchUpdates (stripBodyId body) (JsVal.obj r) store id
      = Except.ok (doc, store3)) :
    (indexEndpoint store).1 = [ResAction.json 200 (sessionFindAll store)] ∧
    (showEndpoint store id).1 = [ResAction.json 200 (JsVal.obj r)] ∧
    resStatuses (upsertEndpoint store id (JsVal.obj fields)).1 = [200] ∧
    (patchEndpoint store id body).1 = [ResAction.json 200 doc] ∧
    (createEndpoint store fields).1
      = [ResAction.json 201 (JsVal.obj (setField fields "_id" (freshId store)))] ∧
    (destroyEndpoint store id).1 = [ResAction.endRes 204] ∧
    (showEndpoint store2 id2).1 = [ResAction.endRes 404] ∧
    handleError none err res = res ++ [ResAction.send 500 err] := by
  refine ⟨?_, ?_, ?_, ?_, ?_, ?_, ?_, rfl⟩
  · unfold indexEndpoint
    simp [sessionFindAll, respondWithResult, truthy]
  · unfold showEndpoint
    rw [hfound]
    simp [handleEntityNotFound, truthy, respondWithResult]
  · obtain ⟨gs, hgs⟩ := stripBodyId_obj fields
    unfold upsertEndpoint
    rw [hgs]
    cases hany : store.any (idMatches id) <;>
      simp [sessionUpsert, hany, respondWithResult, truthy, resStatuses, statusOf]
  · have hdoc := patchUpdates_ok_obj (stripBodyId body) (JsVal.obj r) store id doc store3 hpatch
    unfold patchEndpoint
    rw [hfound]
    simp only [handleEntityNotFound, truthy, if_true]
    rw [hpatch]
    simp [respondWithResult, hdoc]
  · unfold createEndpoint sessionCreate
    simp [respondWithResult, truthy]
  · unfold destroyEndpoint
    rw [hfound]
    simp [handleEntityNotFound, truthy, removeEntity]
  · unfold showEndpoint
    rw [hmiss]
    simp [handleEntityNotFound, truthy, respondWithResult]

/-- `status_code_mapping` at concrete requests against a one-record store. -/
theorem status_code_mapping_holds :
    (showEndpoint [fieldsOf [("_id", JsVal.num 1), ("name", JsVal.str "a")]]
        (JsVal.num 1)).1
      = [ResAction.json 200 (JsVal.obj (fieldsOf
          [("_id", JsVal.num 1), ("name", JsVal.str "a")]))] ∧
    (destroyEndpoint [fieldsOf [("_id", JsVal.num 1), ("name", JsVal.str "a")]]
        (JsVal.num 1)).1 = [ResAction.endRes 204] ∧
    (showEndpoint [] (JsVal.num 9)).1 = [ResAction.endRes 404] := by
  have h := status_code_mapping
    [fieldsOf [("_id", JsVal.num 1), ("name", JsVal.str "a")]] []
    (JsVal.num 1) (JsVal.num 9) (JsVal.str "boom") (JsVal.arr JsElems.nil)
    (JsVal.obj (fieldsOf [("_id", JsVal.num 1), ("name", JsVal.str "a")]))
    (fieldsOf [("_id", JsVal.num 1), ("name", JsVal.str "a")])
    (fieldsOf [("name", JsVal.str "a")]) []
    [fieldsOf [("_id", JsVal.num 1), ("name", JsVal.str "a")]]
    (by decide) (by decide) (by decide)
  exact ⟨h.2.1, h.2.2.2.2.2.1, h.2.2.2.2.2.2.1⟩
